import Mathlib

/-!
Verification of the PlanReview submission pipeline (src/planreview.py).

The Python module is shallowly embedded: pure helper functions become Lean
functions over `List Char` / `Int`, the external collaborators (PDF
rasterizer, Tesseract OCR, the AI assistant call, the reviewer registry
file) become explicit parameters, and Python dictionaries returned from the
module become Lean structures with `Option` fields for keys that are absent
on some paths.  All definitions are structurally recursive so that every
concrete claim instance can be settled by kernel evaluation (`rfl` /
`decide`).
-/

set_option maxRecDepth 100000

/-- Characters stripped by the Python `str.strip()` method (ASCII whitespace). -/
def pyIsSpace (c : Char) : Bool :=
  c == ' ' || c == '\t' || c == '\n' || c == '\r' || c == '\x0b' || c == '\x0c'

/-- Embedding of Python `str.strip()` on the character list of a string. -/
def stripChars (cs : List Char) : List Char :=
  ((cs.dropWhile pyIsSpace).reverse.dropWhile pyIsSpace).reverse

/-- Embedding of Python `str.strip()`. -/
def pyStrip (s : String) : String :=
  String.mk (stripChars s.data)

/-- Whether `pre` is a leading segment of `cs` (Python `str.startswith`). -/
def startsWithL : List Char → List Char → Bool
  | _, [] => true
  | [], _ :: _ => false
  | a :: as, b :: bs => a == b && startsWithL as bs

/-- Whether `needle` occurs contiguously inside `hay` (Python `in` for strings). -/
def hasInfixL : List Char → List Char → Bool
  | [], needle => needle.isEmpty
  | a :: as, needle => startsWithL (a :: as) needle || hasInfixL as needle

/-- Embedding of Python `sep.join(xs)`. -/
def joinWith (sep : String) : List String → String
  | [] => ""
  | [x] => x
  | x :: y :: ys => x ++ sep ++ joinWith sep (y :: ys)

/-- ASCII lower casing of one character, as Python `str.lower()` does for ASCII. -/
def lowerChar (c : Char) : Char :=
  if 65 ≤ c.toNat ∧ c.toNat ≤ 90 then Char.ofNat (c.toNat + 32) else c

/-- Embedding of Python `str.lower()` (the reviewer names are ASCII). -/
def pyLower (s : String) : String :=
  String.mk (s.data.map lowerChar)

/-- Left-to-right non-overlapping replacement on character lists, with fuel for
structural recursion; the fuel is the length of the haystack, which bounds the
number of steps because each step consumes at least one character. -/
def replaceAllAux (pat rep : List Char) : Nat → List Char → List Char
  | _, [] => []
  | 0, hay => hay
  | fuel + 1, c :: rest =>
    if !pat.isEmpty && startsWithL (c :: rest) pat then
      rep ++ replaceAllAux pat rep fuel ((c :: rest).drop pat.length)
    else
      c :: replaceAllAux pat rep fuel rest

/-- Embedding of Python `str.replace(pat, rep)` (replaces every occurrence). -/
def pyReplace (s pat rep : String) : String :=
  String.mk (replaceAllAux pat.data rep.data s.data.length s.data)

/-- Embedding of Python `str.find(c)`: index of the first occurrence or `-1`. -/
def pyFind (s : String) (c : Char) : Int :=
  match s.data.findIdx? (· == c) with
  | some i => Int.ofNat i
  | none => -1

/-- Embedding of Python `str.rfind(c)`: index of the last occurrence or `-1`. -/
def pyRFind (s : String) (c : Char) : Int :=
  match s.data.reverse.findIdx? (· == c) with
  | some i => Int.ofNat (s.data.length - 1 - i)
  | none => -1

/-- First-occurrence deduplication, generalizing the key order of a Python
dict built by insertion; `seen` collects the keys already emitted. -/
def dedupFirstAux [DecidableEq α] (seen : List α) : List α → List α
  | [] => []
  | x :: xs => if x ∈ seen then dedupFirstAux seen xs else x :: dedupFirstAux (x :: seen) xs

/-- Keys of a Python dict built by repeated insertion, in first-seen order. -/
def dedupFirst [DecidableEq α] (l : List α) : List α :=
  dedupFirstAux [] l

/-- Insertion of one element into a sorted list, keeping it before later
equal-key elements; together with `stableSort` this reproduces the stable
sort performed by Python `sorted`. -/
def insSorted (le : α → α → Bool) (x : α) : List α → List α
  | [] => [x]
  | y :: ys => if le x y then x :: y :: ys else y :: insSorted le x ys

/-- Stable insertion sort (Python `sorted` with a key function). -/
def stableSort (le : α → α → Bool) : List α → List α
  | [] => []
  | x :: xs => insSorted le x (stableSort le xs)

/-- Minimum of a list of integers (Python `min`; the empty case is unreachable
at every use site because groups are built only from surviving words). -/
def listMin : List Int → Int
  | [] => 0
  | [x] => x
  | x :: y :: ys => min x (listMin (y :: ys))

/-- Maximum of a list of integers (Python `max`; empty case unreachable). -/
def listMax : List Int → Int
  | [] => 0
  | [x] => x
  | x :: y :: ys => max x (listMax (y :: ys))

/-- JSON values as produced by Python `json.loads`: objects keep their member
order, numbers are restricted to integers (no input considered in this
development carries a fractional or exponent part). -/
inductive JVal where
  | null
  | bool (b : Bool)
  | num (n : Int)
  | str (s : String)
  | arr (elems : List JVal)
  | obj (members : List (String × JVal))

/-- JSON insignificant whitespace, as accepted by Python `json.loads`. -/
def jsonWs (c : Char) : Bool :=
  c == ' ' || c == '\t' || c == '\n' || c == '\r'

/-- Skip JSON whitespace. -/
def jskip (cs : List Char) : List Char :=
  cs.dropWhile jsonWs

/-- Decode one JSON string body after the opening quote; returns the decoded
characters and the input remaining after the closing quote. -/
def parseStringBody : Nat → List Char → Option (List Char × List Char)
  | 0, _ => none
  | _ + 1, [] => none
  | fuel + 1, c :: cs =>
    if c == '"' then some ([], cs)
    else if c == '\\' then
      match cs with
      | [] => none
      | e :: cs2 =>
        let dec : Option Char :=
          if e == '"' then some '"'
          else if e == '\\' then some '\\'
          else if e == '/' then some '/'
          else if e == 'n' then some '\n'
          else if e == 't' then some '\t'
          else if e == 'r' then some '\r'
          else if e == 'b' then some '\x08'
          else if e == 'f' then some '\x0c'
          else none
        match dec with
        | none => none
        | some d =>
          match parseStringBody fuel cs2 with
          | none => none
          | some (body, rest) => some (d :: body, rest)
    else
      match parseStringBody fuel cs with
      | none => none
      | some (body, rest) => some (c :: body, rest)

/-- Numeric value of a run of decimal digits. -/
def digitsVal (acc : Nat) : List Char → Nat
  | [] => acc
  | c :: cs => digitsVal (acc * 10 + (c.toNat - 48)) cs

/-- Parse a JSON integer (optional minus sign, then digits; a following `.`,
`e` or `E` would start a float, which this model rejects). -/
def parseIntTok (cs : List Char) : Option (Int × List Char) :=
  let neg := startsWithL cs ['-']
  let cs1 := if neg then cs.drop 1 else cs
  let digits := cs1.takeWhile (·.isDigit)
  let rest := cs1.dropWhile (·.isDigit)
  if digits.isEmpty then none
  else if startsWithL rest ['.'] || startsWithL rest ['e'] || startsWithL rest ['E'] then none
  else
    let v : Int := Int.ofNat (digitsVal 0 digits)
    some (if neg then -v else v, rest)

mutual

/-- Parse one JSON value; fuel decreases at every nested parse and one unit of
fuel always accompanies at least one consumed character, so a fuel of the
input length plus two never runs out on well-formed input. -/
def parseVal : Nat → List Char → Option (JVal × List Char)
  | 0, _ => none
  | fuel + 1, cs =>
    match jskip cs with
    | [] => none
    | c :: rest =>
      if c == '\x7b' then parseObjBody fuel rest
      else if c == '[' then parseArrBody fuel rest
      else if c == '"' then
        match parseStringBody (rest.length + 1) rest with
        | none => none
        | some (body, r) => some (JVal.str (String.mk body), r)
      else if c == 't' then
        if startsWithL rest ['r', 'u', 'e'] then some (JVal.bool true, rest.drop 3) else none
      else if c == 'f' then
        if startsWithL rest ['a', 'l', 's', 'e'] then some (JVal.bool false, rest.drop 4) else none
      else if c == 'n' then
        if startsWithL rest ['u', 'l', 'l'] then some (JVal.null, rest.drop 3) else none
      else if c == '-' || c.isDigit then
        match parseIntTok (c :: rest) with
        | none => none
        | some (v, r) => some (JVal.num v, r)
      else none

/-- Parse the members of a JSON object, the opening brace already consumed. -/
def parseObjBody : Nat → List Char → Option (JVal × List Char)
  | 0, _ => none
  | fuel + 1, cs =>
    match jskip cs with
    | [] => none
    | c :: rest =>
      if c == '\x7d' then some (JVal.obj [], rest)
      else
        match parseMembers fuel (c :: rest) with
        | none => none
        | some (ms, r) => some (JVal.obj ms, r)

/-- Parse one `"key": value` member and then either `, more` or the closing
brace. -/
def parseMembers : Nat → List Char → Option (List (String × JVal) × List Char)
  | 0, _ => none
  | fuel + 1, cs =>
    match jskip cs with
    | [] => none
    | c :: rest =>
      if c == '"' then
        match parseStringBody (rest.length + 1) rest with
        | none => none
        | some (key, r1) =>
          match jskip r1 with
          | ':' :: r2 =>
            match parseVal fuel r2 with
            | none => none
            | some (v, r3) =>
              match jskip r3 with
              | ',' :: r4 =>
                match parseMembers fuel r4 with
                | none => none
                | some (ms, r5) => some ((String.mk key, v) :: ms, r5)
              | '\x7d' :: r4 => some ([(String.mk key, v)], r4)
              | _ => none
          | _ => none
      else none

/-- Parse the elements of a JSON array, the opening bracket already consumed. -/
def parseArrBody : Nat → List Char → Option (JVal × List Char)
  | 0, _ => none
  | fuel + 1, cs =>
    match jskip cs with
    | [] => none
    | c :: rest =>
      if c == ']' then some (JVal.arr [], rest)
      else
        match parseElems fuel (c :: rest) with
        | none => none
        | some (vs, r) => some (JVal.arr vs, r)

/-- Parse one array element and then either `, more` or the closing bracket. -/
def parseElems : Nat → List Char → Option (List JVal × List Char)
  | 0, _ => none
  | fuel + 1, cs =>
    match parseVal fuel cs with
    | none => none
    | some (v, r1) =>
      match jskip r1 with
      | ',' :: r2 =>
        match parseElems fuel r2 with
        | none => none
        | some (vs, r3) => some (v :: vs, r3)
      | ']' :: r2 => some ([v], r2)
      | _ => none

end

/-- Embedding of Python `json.loads`: parse exactly one JSON document and
reject trailing non-whitespace (`Extra data` in CPython); `none` stands for a
raised `json.JSONDecodeError`. -/
def jsonLoads (s : String) : Option JVal :=
  match parseVal (4 * s.data.length + 8) s.data with
  | none => none
  | some (v, rest) => if (jskip rest).isEmpty then some v else none

/-- One word-level record of the Tesseract `image_to_data` dictionary output
for one page: the entries of `data` at one index `i` that
`extract_text_with_ocr_blocks` reads (`text`, `conf`, `left`, `top`,
`width`, `height`, `block_num`). -/
structure Word where
  text : String
  conf : Int
  left : Int
  top : Int
  width : Int
  height : Int
  block_num : Nat
deriving DecidableEq, Repr

/-- The word records of one rasterized page, in engine-emitted order. -/
abbrev PageData := List Word

/-- Bounding box of an emitted text block. -/
structure Bbox where
  x : Int
  y : Int
  width : Int
  height : Int
deriving DecidableEq, Repr

/-- One element of the list returned by `extract_text_with_ocr_blocks`. -/
structure OcrResult where
  text : String
  bbox : Bbox
  page : Nat
  confidence : Int
  block_id : Nat
deriving DecidableEq, Repr

/-- The word filter of `extract_text_with_ocr_blocks`: a word survives iff its
stripped text is truthy (non-empty) and its confidence is strictly above 30
(`if text and int(data[conf][i]) > 30`). -/
def keptWord (w : Word) : Bool :=
  !(stripChars w.text.data).isEmpty && decide (30 < w.conf)

/-- The words of a page that pass the filter, in order. -/
def survivors (ws : PageData) : List Word :=
  ws.filter keptWord

/-- The surviving words appended to the dict entry of block `b`, in order. -/
def groupWords (ws : PageData) (b : Nat) : List Word :=
  (survivors ws).filter (fun w => w.block_num == b)

/-- The keys of the `blocks` dict after the filtering loop, in first-insertion
order (Python dicts preserve insertion order). -/
def pageBlockIds (ws : PageData) : List Nat :=
  dedupFirst ((survivors ws).map (·.block_num))

/-- The `ocr_result` dict built for one block group: combined stripped texts
joined by single spaces, enclosing bounding box via min/max, truncated
integer mean confidence (`int(sum/len)` truncates toward zero, `Int.tdiv`). -/
def mkBlock (page_num : Nat) (b : Nat) (g : List Word) : OcrResult :=
  let min_x := listMin (g.map (·.left))
  let min_y := listMin (g.map (·.top))
  let max_x := listMax (g.map (fun w => w.left + w.width))
  let max_y := listMax (g.map (fun w => w.top + w.height))
  let confs := g.map (·.conf)
  { text := joinWith " " (g.map (fun w => String.mk (stripChars w.text.data)))
    bbox := { x := min_x, y := min_y, width := max_x - min_x, height := max_y - min_y }
    page := page_num
    confidence := Int.tdiv confs.sum (Int.ofNat confs.length)
    block_id := b }

/-- Processing of one page inside the loop of `extract_text_with_ocr_blocks`:
one emitted block per dict key, in dict order (the `if block_data[texts]`
guard never fails because entries are created only when a word is appended). -/
def processPage (page_num : Nat) (ws : PageData) : List OcrResult :=
  (pageBlockIds ws).map (fun b => mkBlock page_num b (groupWords ws b))

/-- The page loop of `extract_text_with_ocr_blocks` over
`enumerate(images, 1)`; a page whose OCR backend call raises (`Except.error`)
aborts the whole loop, which the surrounding `try` turns into `none`. -/
def extractLoop : Nat → List (Except String PageData) → Option (List OcrResult)
  | _, [] => some []
  | _, Except.error _ :: _ => none
  | n, Except.ok ws :: ps =>
    match extractLoop (n + 1) ps with
    | none => none
    | some rs => some (processPage n ws ++ rs)

/-- Embedding of `extract_text_with_ocr_blocks`.  The input stands for the
outcome of the external PDF/OCR engines: `Except.error` at the top level is a
raised `convert_from_bytes` exception, an `Except.error` page is a raised
`pytesseract.image_to_data` exception for that page.  The surrounding
`try/except` turns any raised exception into an empty result list. -/
def extract_text_with_ocr_blocks (input : Except String (List (Except String PageData))) :
    List OcrResult :=
  match input with
  | Except.error _ => []
  | Except.ok pages =>
    match extractLoop 1 pages with
    | none => []
    | some rs => rs

/-- Extraction applied to pages that all rasterize and OCR without raising. -/
def extractAll (pages : List PageData) : List OcrResult :=
  extract_text_with_ocr_blocks (Except.ok (pages.map Except.ok))

/-- The (page, block_id) tags of a list of emitted blocks. -/
def blockPairs (rs : List OcrResult) : List (Nat × Nat) :=
  rs.map (fun r => (r.page, r.block_id))

/-- The three lines appended to `formatted_text` for one block (position line,
quoted text line, blank separator line). -/
def blockLines (i : Nat) (b : OcrResult) : List String :=
  ["Block " ++ toString i ++ " [Position: x=" ++ toString b.bbox.x ++ ", y=" ++
      toString b.bbox.y ++ ", size=" ++ toString b.bbox.width ++ "x" ++
      toString b.bbox.height ++ ", confidence=" ++ toString b.confidence ++ "%]:",
   "  \"" ++ b.text ++ "\"",
   ""]

/-- The `enumerate(sorted_blocks, 1)` loop body of `format_ocr_for_prompt`. -/
def numberedBlockLines : Nat → List OcrResult → List String
  | _, [] => []
  | i, b :: bs => blockLines i b ++ numberedBlockLines (i + 1) bs

/-- The sort key order of `sorted(page_blocks, key=(y, x))`: ascending y, then
ascending x; `stableSort` with this relation reproduces the stable Python sort. -/
def blockLe (b1 b2 : OcrResult) : Bool :=
  decide (b1.bbox.y < b2.bbox.y) || (decide (b1.bbox.y = b2.bbox.y) && decide (b1.bbox.x ≤ b2.bbox.x))

/-- The lines appended for one page of `format_ocr_for_prompt`: page header,
divider, sorted numbered blocks, trailing blank line between pages. -/
def pageSection (page_num : Nat) (page_blocks : List OcrResult) : List String :=
  ("PAGE " ++ toString page_num ++ " (" ++ toString page_blocks.length ++ " text blocks):") ::
  "----------------------------------------" ::
  (numberedBlockLines 1 (stableSort blockLe page_blocks) ++ [""])

/-- Embedding of `format_ocr_for_prompt`: empty (falsy) input short-circuits
to a fixed sentence, otherwise blocks are grouped by page (insertion order
keys, then numerically sorted), rendered, and joined with newlines. -/
def format_ocr_for_prompt (ocr_data : List OcrResult) : String :=
  if ocr_data.isEmpty then "No text extracted from the document."
  else
    let pageKeys := stableSort (fun a b => decide (a ≤ b)) (dedupFirst (ocr_data.map (·.page)))
    let body := (pageKeys.map (fun p => pageSection p (ocr_data.filter (fun r => r.page == p)))).flatten
    joinWith "\n"
      ("=== EXTRACTED TEXT FROM PLAN DOCUMENTS: USE ONLY FOR REFERENCE NOT COMMENTS ===\n" ::
        body ++ ["=== END EXTRACTED TEXT ===\n"])

/-- The fallback `comments_data` structure built by both submit functions when
no JSON can be recovered from the assistant response. -/
def fallbackComments (category assistant_response : String) : JVal :=
  JVal.obj [("comments", JVal.arr [JVal.obj
    [("page_key", JVal.str "Sheet 1"),
     ("region", JVal.obj [("x", JVal.num 0), ("y", JVal.num 0), ("w", JVal.num 100), ("h", JVal.num 100)]),
     ("body", JVal.str assistant_response),
     ("suggested_fix", JVal.str "Please review the assistant\x27s feedback for specific recommendations."),
     ("severity", JVal.str "major"),
     ("category", JVal.str category),
     ("code_refs", JVal.arr [])]])]

/-- The fallback category of the generic path:
`reviewer_name.lower().replace(" reviewer", "")`. -/
def reviewerCategory (reviewer_name : String) : String :=
  pyReplace (pyLower reviewer_name) " reviewer" ""

/-- The substring selection of the non-brace-leading branch: first `\x7b`,
last `\x7d`, slice `assistant_response[start_idx:end_idx]` returned only when
`start_idx >= 0 and end_idx > start_idx`. -/
def braceSub (s : String) : Option String :=
  let start_idx : Int := pyFind s '\x7b'
  let end_idx : Int := pyRFind s '\x7d' + 1
  if start_idx ≥ 0 ∧ end_idx > start_idx then
    some (String.mk ((s.data.drop start_idx.toNat).take (end_idx - start_idx).toNat))
  else none

/-- The response decoding block shared verbatim by `submit_plan_to_reviewer`
and `submit_plan_to_stormwater_reviewer` (they differ only in the fallback
category): try `json.loads` on the whole string when the stripped response
starts with a brace, otherwise try the first-to-last-brace substring; a
`json.JSONDecodeError` anywhere, or a missing substring, yields the fallback
structure.  A parse failure in the brace-leading branch jumps directly to the
`except` handler, so the substring step is never reached from there. -/
def decodeAssistantResponse (category assistant_response : String) : JVal :=
  let fb := fallbackComments category assistant_response
  if startsWithL (stripChars assistant_response.data) ['\x7b'] then
    match jsonLoads assistant_response with
    | some j => j
    | none => fb
  else
    match braceSub assistant_response with
    | some json_str =>
      match jsonLoads json_str with
      | some j => j
      | none => fb
    | none => fb

/-- One entry of the `activereviewers.json` registry document (only the two
fields the module reads). -/
structure Reviewer where
  name : String
  assistant_id : String
deriving DecidableEq, Repr

/-- Embedding of `get_reviewer_by_name`: first registry entry with the given
name. -/
def get_reviewer_by_name (reviewers : List Reviewer) (reviewer_name : String) : Option Reviewer :=
  reviewers.find? (fun r => r.name == reviewer_name)

/-- Embedding of `get_stormwater_reviewer`. -/
def get_stormwater_reviewer (reviewers : List Reviewer) : Option Reviewer :=
  reviewers.find? (fun r => r.name == "Stormwater Reviewer")

/-- The dictionary returned by `udochat.create_flask_response`; `.get` lookups
with absent keys are modelled by `Option` fields. -/
structure CallResult where
  status : Option String
  response : Option String
  assistant_id : Option String
  thread_id : Option String
deriving DecidableEq, Repr

/-- The dictionary returned by the submit functions; keys absent from a given
return statement are `none`. -/
structure SubmitResult where
  status : String
  comments_data : Option JVal
  raw_response : Option String
  assistant_id : Option String
  thread_id : Option String
  reviewer_name : Option String
  error : Option String
  details : Option String

/-- The message template of `submit_plan_to_reviewer` (the `ocr_text` slot is
filled with the empty string at the call site because the
`format_ocr_for_prompt` call is commented out in the source). -/
def reviewerMessage (title ocr_text : String) : String :=
  "Please review this development plan.\n\nPlan Title: " ++
  (title ++
  ("\n\nThis is the first sheet of the plan set that needs review according to your role.\n\n" ++
  (ocr_text ++
  "\n\nRely on your file search tool for generating comments. Please provide your review.")))

/-- The message template of `submit_plan_to_stormwater_reviewer`. -/
def stormwaterMessage (title ocr_text : String) : String :=
  "Please review this development plan for stormwater compliance.\n\nPlan Title: " ++
  (title ++
  ("\n\nThis is the first sheet of the plan set that needs review according to municipal stormwater regulations.\n\n" ++
  (ocr_text ++
  "\n\nBased on the extracted text and layout information above, please provide your review focusing on:\n1. Stormwater management requirements\n2. Impervious surface calculations and compliance\n3. Drainage and erosion control measures\n4. UDO Section 9 compliance\n5. Any missing information or documentation\n\nWhen referencing specific areas of concern, use the position information from the extracted text blocks to provide precise feedback.")))

/-- Embedding of `submit_plan_to_reviewer`.  External collaborators are
parameters: `reviewers` is the parsed registry file, `ocr_input` the outcome
of the PDF/OCR engines, `call` the `udochat.create_flask_response` collaborator
(`Except.error` stands for a raised exception, absorbed by the outer
`try/except`).  The function is total: no exception crosses the boundary. -/
def submit_plan_to_reviewer (reviewers : List Reviewer)
    (ocr_input : Except String (List (Except String PageData)))
    (call : String → String → Except String CallResult)
    (title reviewer_name : String) : SubmitResult :=
  match get_reviewer_by_name reviewers reviewer_name with
  | none =>
    { status := "error"
      error := some ("Reviewer \x27" ++ reviewer_name ++ "\x27 not found in configuration")
      comments_data := none, raw_response := none, assistant_id := none
      thread_id := none, reviewer_name := none, details := none }
  | some reviewer =>
    let _ocr_data := extract_text_with_ocr_blocks ocr_input
    let ocr_text := ""
    let message := reviewerMessage title ocr_text
    match call message reviewer.assistant_id with
    | Except.error e =>
      { status := "error"
        error := some ("Failed to process plan with " ++ reviewer_name)
        details := some e
        comments_data := none, raw_response := none, assistant_id := none
        thread_id := none, reviewer_name := none }
    | Except.ok result =>
      if result.status = some "success" then
        let assistant_response := result.response.getD ""
        { status := "success"
          comments_data := some (decodeAssistantResponse (reviewerCategory reviewer_name) assistant_response)
          raw_response := some assistant_response
          assistant_id := result.assistant_id
          thread_id := result.thread_id
          reviewer_name := some reviewer_name
          error := none, details := none }
      else
        { status := "error"
          error := some ("Failed to get response from " ++ reviewer_name)
          details := some (result.response.getD "Unknown error")
          comments_data := none, raw_response := none, assistant_id := none
          thread_id := none, reviewer_name := none }

/-- Embedding of `submit_plan_to_stormwater_reviewer`, under the same
conventions as `submit_plan_to_reviewer`; here the OCR dump is actually
interpolated into the message, the fallback category is fixed to
"stormwater", and the success result carries no `reviewer_name` key. -/
def submit_plan_to_stormwater_reviewer (reviewers : List Reviewer)
    (ocr_input : Except String (List (Except String PageData)))
    (call : String → String → Except String CallResult)
    (title : String) : SubmitResult :=
  match get_stormwater_reviewer reviewers with
  | none =>
    { status := "error"
      error := some "Stormwater reviewer not found in configuration"
      comments_data := none, raw_response := none, assistant_id := none
      thread_id := none, reviewer_name := none, details := none }
  | some stormwater_reviewer =>
    let ocr_data := extract_text_with_ocr_blocks ocr_input
    let ocr_text := format_ocr_for_prompt ocr_data
    let message := stormwaterMessage title ocr_text
    match call message stormwater_reviewer.assistant_id with
    | Except.error e =>
      { status := "error"
        error := some "Failed to process plan with AI assistant"
        details := some e
        comments_data := none, raw_response := none, assistant_id := none
        thread_id := none, reviewer_name := none }
    | Except.ok result =>
      if result.status = some "success" then
        let assistant_response := result.response.getD ""
        { status := "success"
          comments_data := some (decodeAssistantResponse "stormwater" assistant_response)
          raw_response := some assistant_response
          assistant_id := result.assistant_id
          thread_id := result.thread_id
          reviewer_name := none
          error := none, details := none }
      else
        { status := "error"
          error := some "Failed to get response from assistant"
          details := some (result.response.getD "Unknown error")
          comments_data := none, raw_response := none, assistant_id := none
          thread_id := none, reviewer_name := none }

/-- The closed severity enumeration of the specification (a definition from
the spec, for refinement statements: the source itself declares no enums). -/
def specSeverityEnum : List String :=
  ["info", "minor", "major", "blocking"]

/-- The closed category enumeration of the specification (a definition from
the spec, for refinement statements: the source itself declares no enums). -/
def specCategoryEnum : List String :=
  ["zoning", "utilities", "stormwater", "transportation", "fire", "landscape", "ada", "general"]

/-- Concrete one-word page fixtures used by witnesses and counterexamples. -/
def wA : Word := { text := " HELLO ", conf := 90, left := 5, top := 6, width := 20, height := 7, block_num := 1 }

/-- Second word of the same block as `wA`. -/
def wB : Word := { text := "WORLD", conf := 80, left := 30, top := 6, width := 18, height := 8, block_num := 1 }

/-- A word that is dropped because its stripped text is empty. -/
def wEmptyText : Word := { text := "  ", conf := 95, left := 1, top := 1, width := 2, height := 2, block_num := 2 }

/-- A word that is dropped because its confidence is exactly the threshold. -/
def wLowConf : Word := { text := "low", conf := 30, left := 1, top := 1, width := 2, height := 2, block_num := 2 }

/-- A surviving single-word block on its own. -/
def wC : Word := { text := "ok", conf := 55, left := 2, top := 40, width := 9, height := 5, block_num := 3 }

/-- A registry holding one generic reviewer. -/
def fireRegistry : List Reviewer := [{ name := "Fire Reviewer", assistant_id := "asst_fire" }]

/-- A registry holding the stormwater reviewer. -/
def swRegistry : List Reviewer := [{ name := "Stormwater Reviewer", assistant_id := "asst_sw" }]

/-- An assistant-call collaborator that succeeds and echoes the submitted
message back as the response, so the dispatched prompt becomes observable in
the result. -/
def recordCall : String → String → Except String CallResult :=
  fun msg _ => Except.ok { status := some "success", response := some msg, assistant_id := none, thread_id := none }

/-- An assistant-call collaborator that raises. -/
def failCall : String → String → Except String CallResult :=
  fun _ _ => Except.error "boom"

/-- Observation: the top-level keys of a JSON object. -/
def topKeys : JVal → List String
  | JVal.obj ms => ms.map (fun m => m.1)
  | _ => []

/-- Observation: the number of elements of a `comments` member array. -/
def commentsLen : JVal → Nat
  | JVal.obj ms =>
    match ms.lookup "comments" with
    | some (JVal.arr l) => l.length
    | _ => 0
  | _ => 0

/-- Observation: the severity string of the first element of a `comments`
member array. -/
def firstCommentSeverity : JVal → Option String
  | JVal.obj ms =>
    match ms.lookup "comments" with
    | some (JVal.arr (JVal.obj cms :: _)) =>
      match cms.lookup "severity" with
      | some (JVal.str s) => some s
      | _ => none
    | _ => none
  | _ => none

/-- Appending strings concatenates their character data. -/
theorem strData_append (a b : String) : (a ++ b).data = a.data ++ b.data := by
  cases a
  cases b
  rfl

/-- A list is a leading segment of itself extended on the right. -/
theorem startsWithL_self_append (t v : List Char) : startsWithL (t ++ v) t = true := by
  induction t with
  | nil => cases v <;> rfl
  | cons c cs ih => simp [startsWithL, ih]

/-- The empty needle occurs in every haystack. -/
theorem hasInfixL_nil (hay : List Char) : hasInfixL hay [] = true := by
  cases hay with
  | nil => rfl
  | cons a as => simp [hasInfixL, startsWithL]

/-- An infix of the tail is an infix of the whole. -/
theorem hasInfixL_append_left (u rest needle : List Char)
    (h : hasInfixL rest needle = true) : hasInfixL (u ++ rest) needle = true := by
  induction u with
  | nil => simpa using h
  | cons a as ih => simp [hasInfixL, ih]

/-- A list occurs in itself extended on the right. -/
theorem hasInfixL_self (t v : List Char) : hasInfixL (t ++ v) t = true := by
  cases t with
  | nil => exact hasInfixL_nil v
  | cons c cs =>
    rw [show ((c :: cs) ++ v) = c :: (cs ++ v) from rfl, hasInfixL]
    rw [show (c :: (cs ++ v)) = ((c :: cs) ++ v) from rfl, startsWithL_self_append]
    rfl

/-- Membership in the first-seen deduplication. -/
theorem mem_dedupFirstAux [DecidableEq α] (a : α) :
    ∀ (l seen : List α), a ∈ dedupFirstAux seen l ↔ a ∈ l ∧ a ∉ seen := by
  intro l
  induction l with
  | nil => intro seen; simp [dedupFirstAux]
  | cons x xs ih =>
    intro seen
    by_cases hx : x ∈ seen
    · rw [dedupFirstAux, if_pos hx, ih]
      constructor
      · rintro ⟨h1, h2⟩
        exact ⟨List.mem_cons_of_mem _ h1, h2⟩
      · rintro ⟨h1, h2⟩
        rcases List.mem_cons.mp h1 with rfl | h1'
        · exact absurd hx h2
        · exact ⟨h1', h2⟩
    · rw [dedupFirstAux, if_neg hx]
      constructor
      · intro h
        rcases List.mem_cons.mp h with rfl | h'
        · exact ⟨List.mem_cons_self _ _, hx⟩
        · rcases (ih (x :: seen)).mp h' with ⟨h1, h2⟩
          exact ⟨List.mem_cons_of_mem _ h1,
            fun hs => h2 (List.mem_cons_of_mem _ hs)⟩
      · rintro ⟨h1, h2⟩
        rcases List.mem_cons.mp h1 with rfl | h1'
        · exact List.mem_cons_self _ _
        · by_cases hax : a = x
          · subst hax; exact List.mem_cons_self _ _
          · exact List.mem_cons_of_mem _ ((ih (x :: seen)).mpr
              ⟨h1', fun hs => (List.mem_cons.mp hs).elim hax h2⟩)

/-- The first-seen deduplication emits no duplicates. -/
theorem nodup_dedupFirstAux [DecidableEq α] :
    ∀ (l seen : List α), (dedupFirstAux seen l).Nodup := by
  intro l
  induction l with
  | nil => intro seen; simp [dedupFirstAux]
  | cons x xs ih =>
    intro seen
    by_cases hx : x ∈ seen
    · rw [dedupFirstAux, if_pos hx]; exact ih seen
    · rw [dedupFirstAux, if_neg hx]
      refine List.nodup_cons.mpr ⟨fun hmem => ?_, ih (x :: seen)⟩
      exact ((mem_dedupFirstAux x xs (x :: seen)).mp hmem).2 (List.mem_cons_self _ _)

/-- Membership survives `dedupFirst` in both directions. -/
theorem mem_dedupFirst [DecidableEq α] (a : α) (l : List α) :
    a ∈ dedupFirst l ↔ a ∈ l := by
  simp [dedupFirst, mem_dedupFirstAux]

/-- `dedupFirst` emits no duplicates. -/
theorem nodup_dedupFirst [DecidableEq α] (l : List α) : (dedupFirst l).Nodup :=
  nodup_dedupFirstAux l []

/-- The running minimum is a lower bound of every member. -/
theorem listMin_le (x : Int) : ∀ (l : List Int), x ∈ l → listMin l ≤ x
  | [y], h => by
    rcases List.mem_singleton.mp h with rfl
    exact le_refl _
  | y :: z :: zs, h => by
    rcases List.mem_cons.mp h with rfl | h'
    · exact min_le_left _ _
    · exact le_trans (min_le_right _ _) (listMin_le x (z :: zs) h')

/-- The running maximum is an upper bound of every member. -/
theorem le_listMax (x : Int) : ∀ (l : List Int), x ∈ l → x ≤ listMax l
  | [y], h => by
    rcases List.mem_singleton.mp h with rfl
    exact le_refl _
  | y :: z :: zs, h => by
    rcases List.mem_cons.mp h with rfl | h'
    · exact le_max_left _ _
    · exact le_trans (le_listMax x (z :: zs) h') (le_max_right _ _)

/-- Truncating division agrees with natural division on non-negative data. -/
theorem tdiv_ofNat (m n : Nat) : Int.tdiv (Int.ofNat m) (Int.ofNat n) = Int.ofNat (m / n) := rfl

/-- The truncated integer mean of a non-empty list of confidences above 30
and at most 100 lies in [0, 100]. -/
theorem mean_conf_bounds (l : List Int) (hne : l ≠ [])
    (h30 : ∀ c ∈ l, 30 < c) (h100 : ∀ c ∈ l, c ≤ 100) :
    0 ≤ Int.tdiv l.sum (Int.ofNat l.length) ∧ Int.tdiv l.sum (Int.ofNat l.length) ≤ 100 := by
  have hlenpos : 0 < l.length := List.length_pos.mpr hne
  have hlb : l.length • (31 : Int) ≤ l.sum :=
    List.card_nsmul_le_sum l 31 (fun x hx => by have := h30 x hx; omega)
  have hub : l.sum ≤ l.length • (100 : Int) := List.sum_le_card_nsmul l 100 h100
  rw [nsmul_eq_mul] at hlb hub
  have hnn : 0 ≤ l.sum := le_trans (by positivity) hlb
  obtain ⟨m, hm⟩ : ∃ m : Nat, l.sum = Int.ofNat m := ⟨l.sum.toNat, (Int.toNat_of_nonneg hnn).symm⟩
  rw [hm] at hub
  rw [hm, tdiv_ofNat]
  simp only [Int.ofNat_eq_natCast] at hub ⊢
  constructor
  · exact Int.natCast_nonneg _
  · have hm100 : m ≤ l.length * 100 := by omega
    have hdiv : m / l.length < 101 := (Nat.div_lt_iff_lt_mul hlenpos).mpr (by omega)
    have := Nat.lt_succ_iff.mp hdiv
    omega

/-- The page loop unfolded over pages that all rasterize and OCR cleanly. -/
def extractFromPages : Nat → List PageData → List OcrResult
  | _, [] => []
  | n, ws :: ps => processPage n ws ++ extractFromPages (n + 1) ps

/-- On exception-free input the page loop completes with the unfolded result. -/
theorem extractLoop_map_ok : ∀ (pages : List PageData) (n : Nat),
    extractLoop n (pages.map Except.ok) = some (extractFromPages n pages)
  | [], _ => rfl
  | ws :: ps, n => by
    simp [extractLoop, extractFromPages, extractLoop_map_ok ps (n + 1)]

/-- Exception-free extraction is the unfolded page loop started at page 1. -/
theorem extractAll_eq (pages : List PageData) : extractAll pages = extractFromPages 1 pages := by
  simp [extractAll, extract_text_with_ocr_blocks, extractLoop_map_ok]

/-- Block tags distribute over appended block lists. -/
theorem blockPairs_append (l r : List OcrResult) :
    blockPairs (l ++ r) = blockPairs l ++ blockPairs r := by
  simp [blockPairs]

/-- The block tags of one processed page are its page number paired with its
dict keys. -/
theorem blockPairs_processPage (n : Nat) (ws : PageData) :
    blockPairs (processPage n ws) = (pageBlockIds ws).map (fun b => (n, b)) := by
  simp only [blockPairs, processPage, List.map_map]
  rfl

/-- Dict keys of a page are exactly the block numbers of surviving words. -/
theorem mem_pageBlockIds (ws : PageData) (b : Nat) :
    b ∈ pageBlockIds ws ↔ ∃ w ∈ survivors ws, w.block_num = b := by
  simp [pageBlockIds, mem_dedupFirst]

/-- Characterization of emitted block tags over the whole document. -/
theorem mem_blockPairs_extract : ∀ (ps : List PageData) (n p b : Nat),
    (p, b) ∈ blockPairs (extractFromPages n ps) ↔
      ∃ i ws, ps.get? i = some ws ∧ p = n + i ∧ ∃ w ∈ survivors ws, w.block_num = b := by
  intro ps
  induction ps with
  | nil => intro n p b; simp [extractFromPages, blockPairs]
  | cons ws ps ih =>
    intro n p b
    rw [show extractFromPages n (ws :: ps) = processPage n ws ++ extractFromPages (n + 1) ps from rfl]
    rw [blockPairs_append, List.mem_append, blockPairs_processPage, ih]
    constructor
    · rintro (h | ⟨i, ws', hi, hp, hw⟩)
      · rcases List.mem_map.mp h with ⟨b', hb', heq⟩
        obtain ⟨rfl, rfl⟩ := Prod.mk.injEq .. ▸ heq
        exact ⟨0, ws, rfl, by omega, (mem_pageBlockIds ws b').mp hb'⟩
      · exact ⟨i + 1, ws', by simpa using hi, by omega, hw⟩
    · rintro ⟨i, ws', hi, hp, hw⟩
      cases i with
      | zero =>
        obtain rfl : ws = ws' := by simpa using hi
        refine Or.inl (List.mem_map.mpr ⟨b, (mem_pageBlockIds ws b).mpr hw, ?_⟩)
        have : p = n := by omega
        rw [this]
      | succ i =>
        exact Or.inr ⟨i, ws', by simpa using hi, by omega, hw⟩

/-- Every emitted block tag carries a page number at least the start index. -/
theorem blockPairs_extract_page_ge (ps : List PageData) (n p b : Nat)
    (h : (p, b) ∈ blockPairs (extractFromPages n ps)) : n ≤ p := by
  rcases (mem_blockPairs_extract ps n p b).mp h with ⟨i, ws, _, hp, _⟩
  omega

/-- The emitted block tags of the whole document are pairwise distinct. -/
theorem nodup_blockPairs_extract : ∀ (ps : List PageData) (n : Nat),
    (blockPairs (extractFromPages n ps)).Nodup := by
  intro ps
  induction ps with
  | nil => intro n; simp [extractFromPages, blockPairs]
  | cons ws ps ih =>
    intro n
    rw [show extractFromPages n (ws :: ps) = processPage n ws ++ extractFromPages (n + 1) ps from rfl]
    rw [blockPairs_append]
    refine List.nodup_append.mpr ⟨?_, ih (n + 1), ?_⟩
    · rw [blockPairs_processPage]
      exact (nodup_dedupFirst _).map (fun a b hab => by
        simpa using congrArg Prod.snd hab)
    · intro pr hl hr
      rw [blockPairs_processPage] at hl
      rcases List.mem_map.mp hl with ⟨b', _, rfl⟩
      exact absurd (blockPairs_extract_page_ge ps (n + 1) n b' hr) (by omega)

/-- Projection facts of one built block. -/
theorem mkBlock_block_id (n k : Nat) (g : List Word) : (mkBlock n k g).block_id = k := rfl

/-- The page tag of one built block. -/
theorem mkBlock_page (n k : Nat) (g : List Word) : (mkBlock n k g).page = n := rfl

/-- The left edge of one built block. -/
theorem mkBlock_bbox_x (n k : Nat) (g : List Word) :
    (mkBlock n k g).bbox.x = listMin (g.map (·.left)) := rfl

/-- The top edge of one built block. -/
theorem mkBlock_bbox_y (n k : Nat) (g : List Word) :
    (mkBlock n k g).bbox.y = listMin (g.map (·.top)) := rfl

/-- The right edge of one built block. -/
theorem mkBlock_right (n k : Nat) (g : List Word) :
    (mkBlock n k g).bbox.x + (mkBlock n k g).bbox.width =
      listMax (g.map (fun w => w.left + w.width)) := by
  simp [mkBlock]

/-- The bottom edge of one built block. -/
theorem mkBlock_bottom (n k : Nat) (g : List Word) :
    (mkBlock n k g).bbox.y + (mkBlock n k g).bbox.height =
      listMax (g.map (fun w => w.top + w.height)) := by
  simp [mkBlock]

/-- The confidence of one built block. -/
theorem mkBlock_confidence (n k : Nat) (g : List Word) :
    (mkBlock n k g).confidence =
      Int.tdiv ((g.map (·.conf)).sum) (Int.ofNat (g.map (·.conf)).length) := rfl

/-- A surviving word passed the confidence threshold. -/
theorem conf_gt_30_of_mem_survivors (ws : PageData) (w : Word)
    (h : w ∈ survivors ws) : 30 < w.conf := by
  have hk : keptWord w = true := (List.mem_filter.mp h).2
  have := (Bool.and_eq_true _ _).mp hk
  exact of_decide_eq_true this.2

/-- A surviving word is a word of the page. -/
theorem mem_of_mem_survivors (ws : PageData) (w : Word)
    (h : w ∈ survivors ws) : w ∈ ws :=
  (List.mem_filter.mp h).1

/-- The block emitted for the group of `wA` and `wB` on page 1. -/
def blkAB : OcrResult :=
  { text := "HELLO WORLD", bbox := { x := 5, y := 6, width := 43, height := 8 },
    page := 1, confidence := 85, block_id := 1 }

/-- C1 (amended): when the raw response yields no parseable JSON object on
either decode step, the decoder produces exactly the single fallback comment
structure: page_key "Sheet 1", region 0/0/100/100, body equal to the full raw
text, the generic suggested fix, severity "major", and the category passed in
("stormwater" on the stormwater path, the lower-cased reviewer name with every
" reviewer" occurrence removed on the generic path).  A parsed JSON object is
returned as-is even when it has no `comments` member, which is why the claim
as frozen is corrected. -/
theorem decode_unparseable_yields_single_fallback (category assistant_response : String)
    (h1 : jsonLoads assistant_response = none)
    (h2 : ∀ s, braceSub assistant_response = some s → jsonLoads s = none) :
    decodeAssistantResponse category assistant_response =
      fallbackComments category assistant_response := by
  simp only [decodeAssistantResponse]
  by_cases hb : startsWithL (stripChars assistant_response.data) ['\x7b'] = true
  · rw [if_pos hb, h1]
  · rw [if_neg hb]
    cases hbs : braceSub assistant_response with
    | none => rfl
    | some s =>
      show (match jsonLoads s with
        | some j => j
        | none => fallbackComments category assistant_response) =
          fallbackComments category assistant_response
      rw [h2 s hbs]

/-- Witness for C1 at the specification example response, with the concrete
generic-path category. -/
theorem decode_unparseable_yields_single_fallback_witness :
    jsonLoads "I could not find any issues." = none
  ∧ decodeAssistantResponse (reviewerCategory "Fire Reviewer") "I could not find any issues." =
      fallbackComments (reviewerCategory "Fire Reviewer") "I could not find any issues."
  ∧ reviewerCategory "Fire Reviewer" = "fire" :=
  ⟨rfl,
   decode_unparseable_yields_single_fallback _ _ rfl
     (fun s hs => by
       rw [show braceSub "I could not find any issues." = none from rfl] at hs
       exact Option.noConfusion hs),
   rfl⟩

/-- C1 counterexample: a successfully parsed JSON object with no `comments`
member is returned verbatim, not replaced by the fallback comment the claim
requires. -/
theorem decode_missing_comments_array_not_fallback :
    decodeAssistantResponse (reviewerCategory "Fire Reviewer") "\x7b\"note\": \"hi\"\x7d" =
      JVal.obj [("note", JVal.str "hi")]
  ∧ decodeAssistantResponse (reviewerCategory "Fire Reviewer") "\x7b\"note\": \"hi\"\x7d" ≠
      fallbackComments (reviewerCategory "Fire Reviewer") "\x7b\"note\": \"hi\"\x7d" := by
  refine ⟨rfl, fun h => ?_⟩
  have h2 := congrArg topKeys h
  exact absurd h2 (by decide)

/-- C2 (amended): the first-brace-to-last-brace substring step is attempted
exactly when the stripped response does not start with a brace; when the
stripped response starts with a brace and whole-string parsing fails, the
decoder resorts directly to the fallback comment without attempting the
substring step. -/
theorem decode_substring_step_gating (category assistant_response s : String) (j : JVal) :
    (startsWithL (stripChars assistant_response.data) ['\x7b'] = true →
      jsonLoads assistant_response = none →
      decodeAssistantResponse category assistant_response =
        fallbackComments category assistant_response)
  ∧ (startsWithL (stripChars assistant_response.data) ['\x7b'] = false →
      braceSub assistant_response = some s →
      jsonLoads s = some j →
      decodeAssistantResponse category assistant_response = j) := by
  constructor
  · intro hb h1
    simp only [decodeAssistantResponse]
    rw [if_pos hb, h1]
  · intro hb hbs hj
    simp only [decodeAssistantResponse]
    rw [if_neg (by simp [hb]), hbs]
    show (match jsonLoads s with
      | some j => j
      | none => fallbackComments category assistant_response) = j
    rw [hj]

/-- Witness for C2 on both branches: a brace-leading unparseable response
falls back; a prose-wrapped response has its embedded JSON extracted. -/
theorem decode_substring_step_gating_witness :
    decodeAssistantResponse "fire" "\x7b\"comments\": []\x7d Thanks" =
      fallbackComments "fire" "\x7b\"comments\": []\x7d Thanks"
  ∧ decodeAssistantResponse "ada"
      "Here is my review: \x7b\"comments\":[\x7b\"body\":\"y\",\"severity\":\"minor\",\"category\":\"ada\"\x7d]\x7d  Thanks" =
      JVal.obj [("comments", JVal.arr [JVal.obj
        [("body", JVal.str "y"), ("severity", JVal.str "minor"), ("category", JVal.str "ada")]])] :=
  ⟨(decode_substring_step_gating "fire" "\x7b\"comments\": []\x7d Thanks" "" JVal.null).1 rfl rfl,
   (decode_substring_step_gating "ada"
      "Here is my review: \x7b\"comments\":[\x7b\"body\":\"y\",\"severity\":\"minor\",\"category\":\"ada\"\x7d]\x7d  Thanks"
      "\x7b\"comments\":[\x7b\"body\":\"y\",\"severity\":\"minor\",\"category\":\"ada\"\x7d]\x7d"
      (JVal.obj [("comments", JVal.arr [JVal.obj
        [("body", JVal.str "y"), ("severity", JVal.str "minor"), ("category", JVal.str "ada")]])])).2
     rfl rfl rfl⟩

/-- C2 counterexample: a response whose trimmed text starts with a brace but
does not parse in its entirety goes straight to the fallback comment, even
though the substring step would have parsed successfully. -/
theorem decode_leading_brace_skips_substring_step :
    decodeAssistantResponse "fire" "\x7b\"comments\": []\x7d Thanks" =
      fallbackComments "fire" "\x7b\"comments\": []\x7d Thanks"
  ∧ braceSub "\x7b\"comments\": []\x7d Thanks" = some "\x7b\"comments\": []\x7d"
  ∧ jsonLoads "\x7b\"comments\": []\x7d" = some (JVal.obj [("comments", JVal.arr [])])
  ∧ fallbackComments "fire" "\x7b\"comments\": []\x7d Thanks" ≠
      JVal.obj [("comments", JVal.arr [])] := by
  refine ⟨rfl, rfl, rfl, fun h => ?_⟩
  have h2 := congrArg commentsLen h
  exact absurd h2 (by decide)

/-- C3 (amended): on every upstream failure (raised call, or non-success
status) both submit functions return status "error" with the fixed
human-readable message of that path and carry no comments_data at all (the
Python error dict has no such key); totality of the embedding reflects that
no exception crosses the submit boundary. -/
theorem submit_upstream_failure_returns_error (reviewers : List Reviewer) (r : Reviewer)
    (ocr_input : Except String (List (Except String PageData)))
    (call : String → String → Except String CallResult)
    (title reviewer_name e : String) (cr : CallResult) :
    (get_reviewer_by_name reviewers reviewer_name = some r →
      call (reviewerMessage title "") r.assistant_id = Except.error e →
      submit_plan_to_reviewer reviewers ocr_input call title reviewer_name =
        { status := "error", error := some ("Failed to process plan with " ++ reviewer_name),
          details := some e, comments_data := none, raw_response := none,
          assistant_id := none, thread_id := none, reviewer_name := none })
  ∧ (get_reviewer_by_name reviewers reviewer_name = some r →
      call (reviewerMessage title "") r.assistant_id = Except.ok cr →
      cr.status ≠ some "success" →
      submit_plan_to_reviewer reviewers ocr_input call title reviewer_name =
        { status := "error", error := some ("Failed to get response from " ++ reviewer_name),
          details := some (cr.response.getD "Unknown error"), comments_data := none,
          raw_response := none, assistant_id := none, thread_id := none, reviewer_name := none })
  ∧ (get_stormwater_reviewer reviewers = some r →
      call (stormwaterMessage title (format_ocr_for_prompt (extract_text_with_ocr_blocks ocr_input)))
          r.assistant_id = Except.error e →
      submit_plan_to_stormwater_reviewer reviewers ocr_input call title =
        { status := "error", error := some "Failed to process plan with AI assistant",
          details := some e, comments_data := none, raw_response := none,
          assistant_id := none, thread_id := none, reviewer_name := none })
  ∧ (get_stormwater_reviewer reviewers = some r →
      call (stormwaterMessage title (format_ocr_for_prompt (extract_text_with_ocr_blocks ocr_input)))
          r.assistant_id = Except.ok cr →
      cr.status ≠ some "success" →
      submit_plan_to_stormwater_reviewer reviewers ocr_input call title =
        { status := "error", error := some "Failed to get response from assistant",
          details := some (cr.response.getD "Unknown error"), comments_data := none,
          raw_response := none, assistant_id := none, thread_id := none, reviewer_name := none }) := by
  refine ⟨?_, ?_, ?_, ?_⟩
  · intro h1 h2
    simp only [submit_plan_to_reviewer, h1, h2]
  · intro h1 h2 h3
    simp only [submit_plan_to_reviewer, h1, h2, if_neg h3]
  · intro h1 h2
    simp only [submit_plan_to_stormwater_reviewer, h1, h2]
  · intro h1 h2 h3
    simp only [submit_plan_to_stormwater_reviewer, h1, h2, if_neg h3]

/-- Witness for C3: the collaborator raises on a concrete submission. -/
theorem submit_upstream_failure_returns_error_witness :
    submit_plan_to_reviewer fireRegistry (Except.ok []) failCall "T" "Fire Reviewer" =
      { status := "error", error := some ("Failed to process plan with " ++ "Fire Reviewer"),
        details := some "boom", comments_data := none, raw_response := none,
        assistant_id := none, thread_id := none, reviewer_name := none } :=
  (submit_upstream_failure_returns_error fireRegistry
    { name := "Fire Reviewer", assistant_id := "asst_fire" } (Except.ok []) failCall
    "T" "Fire Reviewer" "boom" { status := none, response := none, assistant_id := none, thread_id := none }).1
    rfl rfl

/-- C3 counterexample: the error result has status "error" but no
comments_data object at all, so there is no empty `comments_data.comments`
list as the claim states. -/
theorem submit_error_has_no_comments_data :
    (submit_plan_to_reviewer fireRegistry (Except.ok []) failCall "T" "Fire Reviewer").status = "error"
  ∧ (submit_plan_to_reviewer fireRegistry (Except.ok []) failCall "T" "Fire Reviewer").comments_data = none
  ∧ ¬ ∃ j, (submit_plan_to_reviewer fireRegistry (Except.ok []) failCall "T" "Fire Reviewer").comments_data = some j := by
  refine ⟨rfl, rfl, ?_⟩
  rintro ⟨j, hj⟩
  rw [show (submit_plan_to_reviewer fireRegistry (Except.ok []) failCall "T" "Fire Reviewer").comments_data
      = none from rfl] at hj
  exact Option.noConfusion hj

/-- C4: submitting with a reviewer name absent from the registry returns the
fixed error result whose message names the missing reviewer; the result is
the same value for every OCR outcome and every collaborator, so no upstream
call is attempted. -/
theorem submit_unknown_reviewer_error (reviewers : List Reviewer) (reviewer_name : String)
    (h : get_reviewer_by_name reviewers reviewer_name = none) :
    (∀ ocr_input call title,
      submit_plan_to_reviewer reviewers ocr_input call title reviewer_name =
        { status := "error"
          error := some ("Reviewer \x27" ++ reviewer_name ++ "\x27 not found in configuration")
          comments_data := none, raw_response := none, assistant_id := none
          thread_id := none, reviewer_name := none, details := none })
  ∧ hasInfixL ("Reviewer \x27" ++ reviewer_name ++ "\x27 not found in configuration").data
      reviewer_name.data = true := by
  constructor
  · intro ocr_input call title
    simp only [submit_plan_to_reviewer, h]
  · rw [strData_append, strData_append, List.append_assoc]
    exact hasInfixL_append_left _ _ _ (hasInfixL_self _ _)

/-- Witness for C4 with an empty registry. -/
theorem submit_unknown_reviewer_error_witness :
    get_reviewer_by_name [] "Ghost Reviewer" = none
  ∧ submit_plan_to_reviewer [] (Except.ok []) failCall "T" "Ghost Reviewer" =
      { status := "error"
        error := some ("Reviewer \x27" ++ "Ghost Reviewer" ++ "\x27 not found in configuration")
        comments_data := none, raw_response := none, assistant_id := none
        thread_id := none, reviewer_name := none, details := none }
  ∧ hasInfixL ("Reviewer \x27" ++ "Ghost Reviewer" ++ "\x27 not found in configuration").data
      "Ghost Reviewer".data = true :=
  ⟨rfl,
   (submit_unknown_reviewer_error [] "Ghost Reviewer" rfl).1 (Except.ok []) failCall "T",
   (submit_unknown_reviewer_error [] "Ghost Reviewer" rfl).2⟩

/-- C5 (amended): the decoder applies no enum validation whatsoever: a JSON
object parsed by either step is returned verbatim, whatever severity or
category values its comments carry; only the fallback comment is guaranteed
an in-enum severity ("major"). -/
theorem decode_no_enum_validation (category assistant_response s : String) (j : JVal) :
    (startsWithL (stripChars assistant_response.data) ['\x7b'] = true →
      jsonLoads assistant_response = some j →
      decodeAssistantResponse category assistant_response = j)
  ∧ (startsWithL (stripChars assistant_response.data) ['\x7b'] = false →
      braceSub assistant_response = some s →
      jsonLoads s = some j →
      decodeAssistantResponse category assistant_response = j)
  ∧ firstCommentSeverity (fallbackComments category assistant_response) = some "major"
  ∧ "major" ∈ specSeverityEnum := by
  refine ⟨?_, ?_, rfl, by decide⟩
  · intro hb hj
    simp only [decodeAssistantResponse]
    rw [if_pos hb, hj]
  · intro hb hbs hj
    simp only [decodeAssistantResponse]
    rw [if_neg (by simp [hb]), hbs]
    show (match jsonLoads s with
      | some j => j
      | none => fallbackComments category assistant_response) = j
    rw [hj]

/-- Witness for C5 at the specification example of a clean JSON response. -/
theorem decode_no_enum_validation_witness :
    decodeAssistantResponse "fire"
      "\x7b\"comments\":[\x7b\"body\":\"x\",\"severity\":\"info\",\"category\":\"general\"\x7d]\x7d" =
      JVal.obj [("comments", JVal.arr [JVal.obj
        [("body", JVal.str "x"), ("severity", JVal.str "info"), ("category", JVal.str "general")]])] :=
  (decode_no_enum_validation "fire"
    "\x7b\"comments\":[\x7b\"body\":\"x\",\"severity\":\"info\",\"category\":\"general\"\x7d]\x7d"
    "" (JVal.obj [("comments", JVal.arr [JVal.obj
      [("body", JVal.str "x"), ("severity", JVal.str "info"), ("category", JVal.str "general")]])])).1
    rfl rfl

/-- C5 counterexample: comments with out-of-enum severity and category are
passed through silently instead of being treated as decode failure. -/
theorem decode_out_of_enum_passthrough :
    decodeAssistantResponse (reviewerCategory "Fire Reviewer")
      "\x7b\"comments\": [\x7b\"body\": \"x\", \"severity\": \"catastrophic\", \"category\": \"weird\"\x7d]\x7d" =
      JVal.obj [("comments", JVal.arr [JVal.obj
        [("body", JVal.str "x"), ("severity", JVal.str "catastrophic"), ("category", JVal.str "weird")]])]
  ∧ "catastrophic" ∉ specSeverityEnum
  ∧ "weird" ∉ specCategoryEnum
  ∧ decodeAssistantResponse (reviewerCategory "Fire Reviewer")
      "\x7b\"comments\": [\x7b\"body\": \"x\", \"severity\": \"catastrophic\", \"category\": \"weird\"\x7d]\x7d" ≠
      fallbackComments (reviewerCategory "Fire Reviewer")
        "\x7b\"comments\": [\x7b\"body\": \"x\", \"severity\": \"catastrophic\", \"category\": \"weird\"\x7d]\x7d" := by
  refine ⟨rfl, by decide, by decide, fun h => ?_⟩
  have h2 := congrArg firstCommentSeverity h
  exact absurd h2 (by decide)

/-- C6 (amended): the stormwater prompt contains the OCR dump slot content and
the plan title; the stormwater submission dispatches exactly the template
filled with the formatted OCR blocks (observed through an echoing
collaborator); the generic named-reviewer submission is the same result for
every OCR outcome, because its OCR slot is hardcoded to the empty string (the
formatting call is commented out in the source). -/
theorem prompt_ocr_inclusion_status (title ocr_text reviewer_name : String)
    (reviewers : List Reviewer) (r : Reviewer)
    (ocr1 ocr2 : Except String (List (Except String PageData)))
    (call : String → String → Except String CallResult) :
    hasInfixL (stormwaterMessage title ocr_text).data ocr_text.data = true
  ∧ hasInfixL (stormwaterMessage title ocr_text).data title.data = true
  ∧ hasInfixL (reviewerMessage title ocr_text).data title.data = true
  ∧ (get_stormwater_reviewer reviewers = some r →
      (submit_plan_to_stormwater_reviewer reviewers ocr1 recordCall title).raw_response =
        some (stormwaterMessage title
          (format_ocr_for_prompt (extract_text_with_ocr_blocks ocr1))))
  ∧ submit_plan_to_reviewer reviewers ocr1 call title reviewer_name =
      submit_plan_to_reviewer reviewers ocr2 call title reviewer_name := by
  refine ⟨?_, ?_, ?_, ?_, ?_⟩
  · simp only [stormwaterMessage, strData_append]
    exact hasInfixL_append_left _ _ _ (hasInfixL_append_left _ _ _
      (hasInfixL_append_left _ _ _ (hasInfixL_self _ _)))
  · simp only [stormwaterMessage, strData_append]
    exact hasInfixL_append_left _ _ _ (hasInfixL_self _ _)
  · simp only [reviewerMessage, strData_append]
    exact hasInfixL_append_left _ _ _ (hasInfixL_self _ _)
  · intro h
    simp [submit_plan_to_stormwater_reviewer, h, recordCall]
  · cases hg : get_reviewer_by_name reviewers reviewer_name <;>
      simp [submit_plan_to_reviewer, hg]

/-- Witness for C6 with the stormwater registry and a one-word page. -/
theorem prompt_ocr_inclusion_status_witness :
    hasInfixL (stormwaterMessage "Plan B" "OCRDUMP").data "OCRDUMP".data = true
  ∧ (submit_plan_to_stormwater_reviewer swRegistry
      (Except.ok [Except.ok [wA]]) recordCall "Plan B").raw_response =
      some (stormwaterMessage "Plan B"
        (format_ocr_for_prompt (extract_text_with_ocr_blocks (Except.ok [Except.ok [wA]])))) :=
  ⟨(prompt_ocr_inclusion_status "Plan B" "OCRDUMP" "x" swRegistry
      { name := "Stormwater Reviewer", assistant_id := "asst_sw" }
      (Except.ok [Except.ok [wA]]) (Except.ok []) failCall).1,
   (prompt_ocr_inclusion_status "Plan B" "OCRDUMP" "x" swRegistry
      { name := "Stormwater Reviewer", assistant_id := "asst_sw" }
      (Except.ok [Except.ok [wA]]) (Except.ok []) failCall).2.2.2.1 rfl⟩

/-- C6 counterexample: on the generic named-reviewer path the dispatched
prompt (observed through an echoing collaborator) does not contain the
Prompt Formatter dump of the extracted blocks, although blocks were
extracted. -/
theorem generic_prompt_lacks_ocr_dump :
    (submit_plan_to_reviewer fireRegistry (Except.ok [Except.ok [wA]])
        recordCall "Plan A" "Fire Reviewer").raw_response =
      some (reviewerMessage "Plan A" "")
  ∧ extract_text_with_ocr_blocks (Except.ok [Except.ok [wA]]) ≠ []
  ∧ hasInfixL (reviewerMessage "Plan A" "").data
      (format_ocr_for_prompt (extract_text_with_ocr_blocks (Except.ok [Except.ok [wA]]))).data = false := by
  refine ⟨rfl, ?_, rfl⟩
  intro h
  have h2 := congrArg List.length h
  exact absurd h2 (by decide)

/-- C7: the extractor emits exactly one block per distinct (page, block_id)
group that retains at least one word after the filter, where a word is
discarded iff its stripped text is empty or its confidence is at most 30:
the emitted (page, block_id) tags are pairwise distinct and are exactly the
(1-indexed page, block number) pairs of surviving words. -/
theorem ocr_one_block_per_surviving_group (pages : List PageData) :
    (blockPairs (extractAll pages)).Nodup
  ∧ (∀ p b : Nat, (p, b) ∈ blockPairs (extractAll pages) ↔
      ∃ i ws, pages.get? i = some ws ∧ p = i + 1 ∧ ∃ w ∈ survivors ws, w.block_num = b)
  ∧ (∀ w : Word, keptWord w = false ↔ (stripChars w.text.data = [] ∨ w.conf ≤ 30)) := by
  refine ⟨?_, ?_, ?_⟩
  · rw [extractAll_eq]
    exact nodup_blockPairs_extract pages 1
  · intro p b
    rw [extractAll_eq, mem_blockPairs_extract]
    constructor <;> rintro ⟨i, ws, hi, hp, hw⟩ <;> exact ⟨i, ws, hi, by omega, hw⟩
  · intro w
    constructor
    · intro h
      by_cases h1 : stripChars w.text.data = []
      · exact Or.inl h1
      · right
        by_cases h2 : 30 < w.conf
        · exfalso
          have hne : (stripChars w.text.data).isEmpty = false := by
            cases hc : stripChars w.text.data
            · exact absurd hc h1
            · rfl
          rw [keptWord, hne, decide_eq_true h2] at h
          exact absurd h (by decide)
        · omega
    · intro h
      rcases h with h1 | h2
      · rw [keptWord, h1]
        rfl
      · have hd : decide (30 < w.conf) = false := decide_eq_false (by omega)
        rw [keptWord, hd, Bool.and_false]

/-- Witness for C7 on a five-word page with two dropped words. -/
theorem ocr_one_block_per_surviving_group_witness :
    (blockPairs (extractAll [[wA, wB, wEmptyText, wLowConf, wC]])).Nodup :=
  (ocr_one_block_per_surviving_group [[wA, wB, wEmptyText, wLowConf, wC]]).1

/-- C8: every emitted block bounding box (computed from min/max over its
constituent words) encloses every constituent word box; its confidence is the
truncated integer mean of the constituent confidences, and whenever the OCR
backend reports confidences at most 100 the block confidence is an integer in
[0, 100]. -/
theorem ocr_block_bbox_encloses_and_mean_confidence (n : Nat) (ws : PageData) (r : OcrResult)
    (hr : r ∈ processPage n ws) :
    (∀ w ∈ survivors ws, w.block_num = r.block_id →
        r.bbox.x ≤ w.left ∧ r.bbox.y ≤ w.top ∧
        w.left + w.width ≤ r.bbox.x + r.bbox.width ∧
        w.top + w.height ≤ r.bbox.y + r.bbox.height)
  ∧ r.confidence = Int.tdiv (((groupWords ws r.block_id).map (·.conf)).sum)
      (Int.ofNat ((groupWords ws r.block_id).map (·.conf)).length)
  ∧ ((∀ w ∈ ws, w.conf ≤ 100) → 0 ≤ r.confidence ∧ r.confidence ≤ 100) := by
  rcases List.mem_map.mp hr with ⟨k, hk, rfl⟩
  rw [mkBlock_block_id]
  refine ⟨?_, ?_, ?_⟩
  · intro w hw hbn
    have hwg : w ∈ groupWords ws k := List.mem_filter.mpr ⟨hw, by simp [hbn]⟩
    refine ⟨?_, ?_, ?_, ?_⟩
    · rw [mkBlock_bbox_x]
      exact listMin_le _ _ (List.mem_map_of_mem _ hwg)
    · rw [mkBlock_bbox_y]
      exact listMin_le _ _ (List.mem_map_of_mem _ hwg)
    · rw [mkBlock_right]
      exact le_listMax _ _ (List.mem_map_of_mem _ hwg)
    · rw [mkBlock_bottom]
      exact le_listMax _ _ (List.mem_map_of_mem _ hwg)
  · rw [mkBlock_confidence]
  · intro h100
    rw [mkBlock_confidence]
    apply mean_conf_bounds
    · obtain ⟨w, hwsur, hwk⟩ := (mem_pageBlockIds ws k).mp hk
      have hwg : w ∈ groupWords ws k := List.mem_filter.mpr ⟨hwsur, by simp [hwk]⟩
      exact List.ne_nil_of_mem (List.mem_map_of_mem _ hwg)
    · rintro c hc
      rcases List.mem_map.mp hc with ⟨w', hw', rfl⟩
      exact conf_gt_30_of_mem_survivors ws w' (List.mem_filter.mp hw').1
    · rintro c hc
      rcases List.mem_map.mp hc with ⟨w', hw', rfl⟩
      exact h100 w' (mem_of_mem_survivors ws w' (List.mem_filter.mp hw').1)

/-- Witness for C8 on the concrete two-word block of page 1. -/
theorem ocr_block_bbox_encloses_and_mean_confidence_witness :
    (blkAB ∈ processPage 1 [wA, wB])
  ∧ ((∀ w ∈ survivors [wA, wB], w.block_num = blkAB.block_id →
        blkAB.bbox.x ≤ w.left ∧ blkAB.bbox.y ≤ w.top ∧
        w.left + w.width ≤ blkAB.bbox.x + blkAB.bbox.width ∧
        w.top + w.height ≤ blkAB.bbox.y + blkAB.bbox.height)
    ∧ blkAB.confidence = Int.tdiv (((groupWords [wA, wB] blkAB.block_id).map (·.conf)).sum)
        (Int.ofNat ((groupWords [wA, wB] blkAB.block_id).map (·.conf)).length)
    ∧ ((∀ w ∈ [wA, wB], w.conf ≤ 100) → 0 ≤ blkAB.confidence ∧ blkAB.confidence ≤ 100)) :=
  ⟨by decide, ocr_block_bbox_encloses_and_mean_confidence 1 [wA, wB] blkAB (by decide)⟩

/-- The page loop short-circuits to failure when any page raises. -/
theorem extractLoop_error_none (e : String) :
    ∀ (ps : List (Except String PageData)) (n : Nat),
      Except.error e ∈ ps → extractLoop n ps = none := by
  intro ps
  induction ps with
  | nil => intro n h; cases h
  | cons p ps ih =>
    intro n h
    cases p with
    | error msg => rfl
    | ok ws =>
      have hmem : Except.error e ∈ ps := by
        rcases List.mem_cons.mp h with heq | h'
        · exact Except.noConfusion heq
        · exact h'
      simp [extractLoop, ih (n + 1) hmem]

/-- C9: a raised PDF conversion, or a raised OCR backend call on any page,
makes the extractor return an empty block list instead of propagating the
failure (the embedding is total, so nothing is thrown). -/
theorem ocr_backend_failure_degrades_to_empty (e : String)
    (pages : List (Except String PageData)) :
    extract_text_with_ocr_blocks (Except.error e) = []
  ∧ (Except.error e ∈ pages → extract_text_with_ocr_blocks (Except.ok pages) = []) := by
  refine ⟨rfl, fun h => ?_⟩
  simp [extract_text_with_ocr_blocks, extractLoop_error_none e pages 1 h]

/-- Witness for C9: page 1 succeeds, page 2 raises, nothing is emitted. -/
theorem ocr_backend_failure_degrades_to_empty_witness :
    extract_text_with_ocr_blocks
      (Except.ok [Except.ok [wA], Except.error "tesseract failed"]) = [] :=
  (ocr_backend_failure_degrades_to_empty "tesseract failed"
    [Except.ok [wA], Except.error "tesseract failed"]).2
    (List.mem_cons_of_mem _ (List.mem_cons_self _ _))

/-- Joining a list with a non-empty tail takes one separator step. -/
theorem joinWith_cons_of_ne_nil (sep x : String) (ys : List String) (h : ys ≠ []) :
    joinWith sep (x :: ys) = x ++ sep ++ joinWith sep ys := by
  cases ys with
  | nil => exact absurd rfl h
  | cons y ys => rfl

/-- C10: an empty block list short-circuits the Prompt Formatter to the exact
fixed sentence, while any non-empty block list produces the header-wrapped
listing instead. -/
theorem format_empty_input_exact_message :
    format_ocr_for_prompt [] = "No text extracted from the document."
  ∧ (∀ d : List OcrResult, d ≠ [] →
      ∃ rest, format_ocr_for_prompt d =
        "=== EXTRACTED TEXT FROM PLAN DOCUMENTS: USE ONLY FOR REFERENCE NOT COMMENTS ===\n" ++
          "\n" ++ rest) := by
  refine ⟨rfl, fun d hd => ?_⟩
  rw [format_ocr_for_prompt]
  rw [if_neg (by cases d with | nil => exact absurd rfl hd | cons x xs => simp)]
  exact ⟨_, joinWith_cons_of_ne_nil _ _ _ (by simp)⟩

/-- Witness for C10 at the one-block document. -/
theorem format_empty_input_exact_message_witness :
    ∃ rest, format_ocr_for_prompt [blkAB] =
      "=== EXTRACTED TEXT FROM PLAN DOCUMENTS: USE ONLY FOR REFERENCE NOT COMMENTS ===\n" ++
        "\n" ++ rest :=
  format_empty_input_exact_message.2 [blkAB] (by simp)
